import Mathlib

/-!
Shallow embedding of the `near-ft` fungible-token contract
(`src/src/lib.rs`).  Only `lib.rs` is visible in the repository: the
modules `events`, `ft_core`, `internal`, `metadata` and `storage` that it
declares are absent, so the helpers that `Contract::new` calls
(`measure_bytes_for_longest_account_id`, `internal_register_account`,
`internal_deposit`, the `FtMint` event and the metadata struct) and the
post-initialization core operations are modelled from the spec; each such
definition carries a doc comment saying so.  Everything else is a direct
translation of the Rust in `lib.rs`.
-/

set_option maxHeartbeats 1000000

namespace NearFt

/-- NEAR account identifiers (`near_sdk::AccountId`), modelled as strings. -/
abbrev AccountId := String

/-- Largest value representable by `u128`; `NearToken` amounts (yoctoNEAR)
are `u128` in the source and are modelled as `Nat` bounded by this. -/
def u128Max : Nat := 2 ^ 128 - 1

/-- Translation of `FungibleTokenMetadata` (declared in the absent
`metadata` module; its fields are fixed by the literal in
`Contract::new_default_meta` and by the NEP-148 standard the spec names). -/
structure FungibleTokenMetadata where
  spec : String
  name : String
  symbol : String
  icon : Option String
  reference : Option String
  reference_hash : Option String
  decimals : Nat
  deriving DecidableEq, Repr

/-- Translation of the `DATA_IMAGE_SVG_GT_ICON` constant of `lib.rs`. -/
def DATA_IMAGE_SVG_GT_ICON : String := "data:image/svg+xml;base64,PD94bWwgdmVyc2lvbj0iMS4wIiBlbmNvZGluZz0idXRmLTgiPz4KPCEtLSBHZW5lcmF0b3I6IEFkb2JlIElsbHVzdHJhdG9yIDI0LjAuMCwgU1ZHIEV4cG9ydCBQbHVnLUluIC4gU1ZHIFZlcnNpb246IDYuMDAgQnVpbGQgMCkgIC0tPgo8c3ZnIHZlcnNpb249IjEuMSIgaWQ9IkxheWVyXzEiIHhtbG5zPSJodHRwOi8vd3d3LnczLm9yZy8yMDAwL3N2ZyIgeG1sbnM6eGxpbms9Imh0dHA6Ly93d3cudzMub3JnLzE5OTkveGxpbmsiIHg9IjBweCIgeT0iMHB4IgoJIHZpZXdCb3g9IjAgMCA5MC4xIDkwIiBzdHlsZT0iZW5hYmxlLWJhY2tncm91bmQ6bmV3IDAgMCA5MC4xIDkwOyIgeG1sOnNwYWNlPSJwcmVzZXJ2ZSI+CjxwYXRoIGQ9Ik03Mi4yLDQuNkw1My40LDMyLjVjLTEuMywxLjksMS4yLDQuMiwzLDIuNkw3NC45LDE5YzAuNS0wLjQsMS4yLTAuMSwxLjIsMC42djUwLjNjMCwwLjctMC45LDEtMS4zLDAuNWwtNTYtNjcKCUMxNywxLjIsMTQuNCwwLDExLjUsMGgtMkM0LjMsMCwwLDQuMywwLDkuNnY3MC44QzAsODUuNyw0LjMsOTAsOS42LDkwYzMuMywwLDYuNC0xLjcsOC4yLTQuNmwxOC44LTI3LjljMS4zLTEuOS0xLjItNC4yLTMtMi42CglsLTE4LjUsMTZjLTAuNSwwLjQtMS4yLDAuMS0xLjItMC42VjIwLjFjMC0wLjcsMC45LTEsMS4zLTAuNWw1Niw2N2MxLjgsMi4yLDQuNSwzLjQsNy4zLDMuNGgyYzUuMywwLDkuNi00LjMsOS42LTkuNlY5LjYKCWMwLTUuMy00LjMtOS42LTkuNi05LjZDNzcuMSwwLDc0LDEuNyw3Mi4yLDQuNnoiLz4KPC9zdmc+"

/-- Translation of the `FT_METADATA_SPEC` constant of `lib.rs`. -/
def FT_METADATA_SPEC : String := "ft-1.0.0"

/-- Memo string of the genesis mint event in `Contract::new`. -/
def initialMintMemo : String := "Initial token supply is minted"

/-- Lookup in the accounts ledger (`LookupMap::get`): the value at the
first entry whose key matches. -/
def lookupAccount (m : List (AccountId × Nat)) (a : AccountId) : Option Nat :=
  match m with
  | [] => none
  | (k, v) :: rest => if k = a then some v else lookupAccount rest a

/-- Insertion into the accounts ledger (`LookupMap::insert`): replace the
first entry whose key matches, or append a fresh entry. -/
def insertAccount (m : List (AccountId × Nat)) (a : AccountId) (v : Nat) :
    List (AccountId × Nat) :=
  match m with
  | [] => [(a, v)]
  | (k, w) :: rest =>
    if k = a then (a, v) :: rest else (k, w) :: insertAccount rest a v

/-- Removal from the accounts ledger (`LookupMap::remove`): drop the first
entry whose key matches. -/
def removeAccount (m : List (AccountId × Nat)) (a : AccountId) :
    List (AccountId × Nat) :=
  match m with
  | [] => []
  | (k, w) :: rest =>
    if k = a then rest else (k, w) :: removeAccount rest a

/-- Sum of all balances recorded in the ledger. -/
def sumBalances (m : List (AccountId × Nat)) : Nat :=
  (m.map Prod.snd).sum

/-- Translation of the `Contract` struct of `lib.rs`: the accounts
`LookupMap` becomes an association list, `NearToken` amounts become `Nat`,
and the metadata `LazyOption` becomes an `Option`. -/
structure Contract where
  accounts : List (AccountId × Nat)
  total_supply : Nat
  bytes_for_longest_account_id : Nat
  metadata : Option FungibleTokenMetadata
  deriving DecidableEq, Repr

/-- Events emitted by the contract: the `FtMint`, `FtTransfer` and
`FtBurn` record shapes of the absent `events` module; field lists follow
the spec and the `FtMint` construction site in `Contract::new`. -/
inductive Event where
  | FtMint (owner_id : AccountId) (amount : Nat) (memo : Option String)
  | FtTransfer (sender_id : AccountId) (receiver_id : AccountId)
      (amount : Nat) (memo : Option String)
  | FtBurn (owner_id : AccountId) (amount : Nat) (memo : Option String)
  deriving DecidableEq, Repr

/-- Error taxonomy of the spec (section 7); host panics in the Rust become
`Except.error` of one of these. -/
inductive FtError where
  | AlreadyInitialized
  | AlreadyRegistered
  | NotRegistered
  | InsufficientStorageDeposit
  | NonZeroBalance
  | UnregisteredAccount
  | UnregisteredReceiver
  | InsufficientBalance
  | SelfTransfer
  | ZeroAmount
  | BalanceOverflow
  deriving DecidableEq, Repr

/-- Modelled from the spec: the longest technically valid account
identifier (NEAR caps account ids at 64 characters), used by the storage
measurement as the worst-case placeholder key; the `internal` module that
builds it is absent from the sources. -/
def longestAccountId : AccountId := String.mk (List.replicate 64 'a')

/-- Modelled from the spec: the host's storage-usage meter restricted to
the ledger, charging each record its key's length plus a fixed overhead
for the serialized balance; the spec only requires that the measured delta
reflect exactly one record's overhead. -/
def storageUsage (m : List (AccountId × Nat)) : Nat :=
  (m.map (fun kv => kv.1.length + 16)).sum

/-- Modelled from the spec: `measure_bytes_for_longest_account_id`
(the absent `internal` module): insert a placeholder record under the
longest account id, record the storage-usage delta caused by that single
insertion, remove the placeholder, and store the delta in
`bytes_for_longest_account_id`. -/
def measure_bytes_for_longest_account_id (c : Contract) : Contract :=
  let before := storageUsage c.accounts
  let withPlaceholder := insertAccount c.accounts longestAccountId 0
  let after := storageUsage withPlaceholder
  let cleaned := removeAccount withPlaceholder longestAccountId
  { c with accounts := cleaned,
           bytes_for_longest_account_id := after - before }

/-- The storage-measurement delta for one worst-case record, as measured
on an empty ledger. -/
def measuredStorageDelta : Nat :=
  storageUsage (insertAccount [] longestAccountId 0)

/-- Modelled from the spec: `internal_register_account` (the absent
`internal` module): fails if the account already has a ledger entry,
otherwise inserts a zero-balance entry. -/
def internal_register_account (c : Contract) (account_id : AccountId) :
    Except FtError Contract :=
  match lookupAccount c.accounts account_id with
  | some _ => Except.error FtError.AlreadyRegistered
  | none => Except.ok { c with accounts := insertAccount c.accounts account_id 0 }

/-- Modelled from the spec: `internal_deposit` (the absent `internal`
module): requires the account to be registered (fatal
`UnregisteredAccount` otherwise), adds the amount to its balance, and
fails with `BalanceOverflow` above the `u128` maximum. -/
def internal_deposit (c : Contract) (account_id : AccountId) (amount : Nat) :
    Except FtError Contract :=
  match lookupAccount c.accounts account_id with
  | none => Except.error FtError.UnregisteredAccount
  | some bal =>
    if bal + amount ≤ u128Max then
      Except.ok { c with accounts := insertAccount c.accounts account_id (bal + amount) }
    else Except.error FtError.BalanceOverflow

/-- Modelled from the spec: `internal_withdraw` (the absent `internal`
module): requires the account to be registered, fails with
`InsufficientBalance` if the amount exceeds the balance, otherwise
subtracts it. -/
def internal_withdraw (c : Contract) (account_id : AccountId) (amount : Nat) :
    Except FtError Contract :=
  match lookupAccount c.accounts account_id with
  | none => Except.error FtError.UnregisteredAccount
  | some bal =>
    if amount ≤ bal then
      Except.ok { c with accounts := insertAccount c.accounts account_id (bal - amount) }
    else Except.error FtError.InsufficientBalance

/-- Modelled from the spec: `internal_transfer` (the absent `internal`
module): rejects self-transfers, zero amounts and unregistered receivers,
composes withdraw-then-deposit so that neither half applies unless both
succeed, and emits one transfer event after both mutations. -/
def internal_transfer (c : Contract) (sender_id receiver_id : AccountId)
    (amount : Nat) (memo : Option String) :
    Except FtError (Contract × List Event) :=
  if sender_id = receiver_id then Except.error FtError.SelfTransfer
  else if amount = 0 then Except.error FtError.ZeroAmount
  else
    match lookupAccount c.accounts receiver_id with
    | none => Except.error FtError.UnregisteredReceiver
    | some _ =>
      match internal_withdraw c sender_id amount with
      | Except.error e => Except.error e
      | Except.ok c1 =>
        match internal_deposit c1 receiver_id amount with
        | Except.error e => Except.error e
        | Except.ok c2 =>
          Except.ok (c2, [Event.FtTransfer sender_id receiver_id amount memo])

/-- Modelled from the spec: `storage_unregister` (the absent `storage`
module): fails if not registered; with a zero balance removes the entry;
with a nonzero balance and `force` it burns that balance from the total
supply before removing the entry, emitting a burn event; otherwise fails
with `NonZeroBalance`. -/
def storage_unregister (c : Contract) (account_id : AccountId) (force : Bool) :
    Except FtError (Contract × List Event) :=
  match lookupAccount c.accounts account_id with
  | none => Except.error FtError.NotRegistered
  | some bal =>
    if bal = 0 then
      Except.ok ({ c with accounts := removeAccount c.accounts account_id }, [])
    else if force then
      Except.ok ({ c with accounts := removeAccount c.accounts account_id,
                          total_supply := c.total_supply - bal },
                 [Event.FtBurn account_id bal none])
    else Except.error FtError.NonZeroBalance

/-- Modelled from the spec: `ft_balance_of` (the absent `ft_core`
module): read-only, zero for unregistered accounts. -/
def ft_balance_of (c : Contract) (account_id : AccountId) : Nat :=
  (lookupAccount c.accounts account_id).getD 0

/-- Modelled from the spec: `ft_total_supply` (the absent `ft_core`
module): read-only view of the stored scalar. -/
def ft_total_supply (c : Contract) : Nat :=
  c.total_supply

/-- Registration state, derived exactly as the spec prescribes: an account
is registered when it has a ledger entry. -/
def isRegistered (c : Contract) (account_id : AccountId) : Bool :=
  (lookupAccount c.accounts account_id).isSome

/-- Translation of `Contract::new` (`lib.rs` lines 81-111): build the
struct with the casted total supply and a temporary zero byte count, run
the storage measurement, register the owner, deposit the genesis supply,
then emit the mint event.  Host panics in the called helpers surface as
`Except.error`, on which no event is emitted. -/
def Contract.new (owner_id : AccountId) (total_supply : Nat)
    (metadata : FungibleTokenMetadata) :
    Except FtError Contract × List Event :=
  let casted_total_supply := total_supply
  let this0 : Contract :=
    { total_supply := casted_total_supply,
      bytes_for_longest_account_id := 0,
      accounts := [],
      metadata := some metadata }
  let this1 := measure_bytes_for_longest_account_id this0
  match internal_register_account this1 owner_id with
  | Except.error e => (Except.error e, [])
  | Except.ok this2 =>
    match internal_deposit this2 owner_id casted_total_supply with
    | Except.error e => (Except.error e, [])
    | Except.ok this3 =>
      (Except.ok this3,
       [Event.FtMint owner_id casted_total_supply (some initialMintMemo)])

/-- The four steps of `Contract::new` after the struct literal is built,
in source order (`lib.rs` lines 88-110). -/
inductive InitStep where
  | measure
  | registerOwner
  | depositGenesis
  | emitMint
  deriving DecidableEq, Repr

/-- The freshly built struct of `Contract::new` (`lib.rs` lines 88-93):
total supply set, byte count temporarily zero, empty ledger, metadata
stored. -/
def initialContract (total_supply : Nat) (metadata : FungibleTokenMetadata) :
    Contract :=
  { total_supply := total_supply,
    bytes_for_longest_account_id := 0,
    accounts := [],
    metadata := some metadata }

/-- The execution trace of `Contract::new`: each step of the body paired
with the contract state at which that step begins, in source order; the
trace stops at the step that fails. -/
def newTrace (owner_id : AccountId) (total_supply : Nat)
    (metadata : FungibleTokenMetadata) : List (InitStep × Contract) :=
  let s0 := initialContract total_supply metadata
  let s1 := measure_bytes_for_longest_account_id s0
  match internal_register_account s1 owner_id with
  | Except.error _ => [(InitStep.measure, s0), (InitStep.registerOwner, s1)]
  | Except.ok s2 =>
    match internal_deposit s2 owner_id total_supply with
    | Except.error _ =>
      [(InitStep.measure, s0), (InitStep.registerOwner, s1),
       (InitStep.depositGenesis, s2)]
    | Except.ok s3 =>
      [(InitStep.measure, s0), (InitStep.registerOwner, s1),
       (InitStep.depositGenesis, s2), (InitStep.emitMint, s3)]

/-- Translation of `Contract::new_default_meta` (`lib.rs` lines 61-76):
delegates to `new` with the fixed default metadata literal. -/
def Contract.new_default_meta (owner_id : AccountId) (total_supply : Nat) :
    Except FtError Contract × List Event :=
  Contract.new owner_id total_supply
    { spec := FT_METADATA_SPEC,
      name := "Team Token FT Tutorial",
      symbol := "gtNEAR",
      icon := some DATA_IMAGE_SVG_GT_ICON,
      reference := none,
      reference_hash := none,
      decimals := 24 }

/-- The post-initialization core operations of the spec (sections 4.1-4.4,
5): every ledger mutation after initialization goes through the
deposit/withdraw pair of a transfer (the synchronous transfer, the eager
leg of a transfer-call and its refund leg are all `internal_transfer`),
through registration, or through unregistration. -/
inductive CoreOp where
  | transfer (sender_id receiver_id : AccountId) (amount : Nat)
      (memo : Option String)
  | registerAccount (account_id : AccountId)
  | unregisterAccount (account_id : AccountId) (force : Bool)
  deriving DecidableEq, Repr

/-- Modelled from the spec: application of one core operation to the
contract state; a returned error means the call aborted with no state
change. -/
def applyOp (c : Contract) : CoreOp → Except FtError (Contract × List Event)
  | CoreOp.transfer sender_id receiver_id amount memo =>
    internal_transfer c sender_id receiver_id amount memo
  | CoreOp.registerAccount account_id =>
    match internal_register_account c account_id with
    | Except.error e => Except.error e
    | Except.ok c1 => Except.ok (c1, [])
  | CoreOp.unregisterAccount account_id force =>
    storage_unregister c account_id force

/-- Reachable contract states: a successful initialization followed by any
sequence of successful core operations. -/
inductive Reachable : Contract → Prop where
  | init (owner_id : AccountId) (total_supply : Nat)
      (metadata : FungibleTokenMetadata) (c : Contract)
      (h : (Contract.new owner_id total_supply metadata).1 = Except.ok c) :
      Reachable c
  | step (c c1 : Contract) (op : CoreOp) (evs : List Event)
      (h : Reachable c) (h1 : applyOp c op = Except.ok (c1, evs)) :
      Reachable c1

/-- Whether a core operation is a forced unregistration of an account
holding a nonzero balance — the one burn path of the spec. -/
def isForcedBurn (c : Contract) : CoreOp → Bool
  | CoreOp.unregisterAccount account_id force =>
    force && !(ft_balance_of c account_id == 0)
  | _ => false

/-- Modelled from the spec: the one-time guard of the `#[init]`
initializer (`PanicOnDefault` plus the `near_bindgen` state check): a
second call fails with `AlreadyInitialized` and leaves state and event log
unchanged.  The pair holds the stored state with the emitted events, and
the error if the call aborted. -/
def initializeContract (prior : Option Contract × List Event)
    (owner_id : AccountId) (total_supply : Nat)
    (metadata : FungibleTokenMetadata) :
    (Option Contract × List Event) × Option FtError :=
  match prior.1 with
  | some _ => (prior, some FtError.AlreadyInitialized)
  | none =>
    match Contract.new owner_id total_supply metadata with
    | (Except.ok c, evs) => ((some c, prior.2 ++ evs), none)
    | (Except.error e, _) => (prior, some e)

/-- Sample account ids and metadata for concrete witnesses. -/
def aliceId : AccountId := "alice.near"

def bobId : AccountId := "bob.near"

def sampleMetadata : FungibleTokenMetadata :=
  { spec := FT_METADATA_SPEC,
    name := "Sample",
    symbol := "SMPL",
    icon := none,
    reference := none,
    reference_hash := none,
    decimals := 24 }

/-- The state produced by a successful `new` with owner `aliceId` and
supply 1000, used as a concrete reachable state in witnesses. -/
def newAliceContract : Contract :=
  { accounts := [(aliceId, 1000)],
    total_supply := 1000,
    bytes_for_longest_account_id := measuredStorageDelta,
    metadata := some sampleMetadata }

/-- The state after additionally registering `bobId`, used as a concrete
post-operation state in witnesses. -/
def registeredBobContract : Contract :=
  { accounts := [(aliceId, 1000), (bobId, 0)],
    total_supply := 1000,
    bytes_for_longest_account_id := measuredStorageDelta,
    metadata := some sampleMetadata }

theorem sumBalances_nil : sumBalances [] = 0 := rfl

theorem sumBalances_cons (k : AccountId) (w : Nat) (rest : List (AccountId × Nat)) :
    sumBalances ((k, w) :: rest) = w + sumBalances rest := by
  simp [sumBalances]

theorem sumBalances_insert_none (m : List (AccountId × Nat)) (a : AccountId)
    (v : Nat) (h : lookupAccount m a = none) :
    sumBalances (insertAccount m a v) = sumBalances m + v := by
  induction m with
  | nil => simp [insertAccount, sumBalances]
  | cons kv rest ih =>
    obtain ⟨k, w⟩ := kv
    by_cases hk : k = a
    · simp [lookupAccount, hk] at h
    · simp only [lookupAccount, hk, if_false] at h
      simp only [insertAccount, hk, if_false]
      rw [sumBalances_cons, sumBalances_cons, ih h]
      omega

theorem sumBalances_insert_some (m : List (AccountId × Nat)) (a : AccountId)
    (v b : Nat) (h : lookupAccount m a = some b) :
    sumBalances (insertAccount m a v) + b = sumBalances m + v := by
  induction m with
  | nil => simp [lookupAccount] at h
  | cons kv rest ih =>
    obtain ⟨k, w⟩ := kv
    by_cases hk : k = a
    · simp only [lookupAccount, hk, if_true, Option.some.injEq] at h
      subst h
      simp only [insertAccount, hk, if_true]
      rw [sumBalances_cons, sumBalances_cons]
      omega
    · simp only [lookupAccount, hk, if_false] at h
      simp only [insertAccount, hk, if_false]
      rw [sumBalances_cons, sumBalances_cons]
      have := ih h
      omega

theorem sumBalances_remove_some (m : List (AccountId × Nat)) (a : AccountId)
    (b : Nat) (h : lookupAccount m a = some b) :
    sumBalances (removeAccount m a) + b = sumBalances m := by
  induction m with
  | nil => simp [lookupAccount] at h
  | cons kv rest ih =>
    obtain ⟨k, w⟩ := kv
    by_cases hk : k = a
    · simp only [lookupAccount, hk, if_true, Option.some.injEq] at h
      subst h
      simp only [removeAccount, hk, if_true]
      rw [sumBalances_cons]
      omega
    · simp only [lookupAccount, hk, if_false] at h
      simp only [removeAccount, hk, if_false]
      rw [sumBalances_cons, sumBalances_cons]
      have := ih h
      omega

theorem lookup_le_sumBalances (m : List (AccountId × Nat)) (a : AccountId)
    (b : Nat) (h : lookupAccount m a = some b) : b ≤ sumBalances m := by
  induction m with
  | nil => simp [lookupAccount] at h
  | cons kv rest ih =>
    obtain ⟨k, w⟩ := kv
    rw [sumBalances_cons]
    by_cases hk : k = a
    · simp only [lookupAccount, hk, if_true, Option.some.injEq] at h
      omega
    · simp only [lookupAccount, hk, if_false] at h
      have := ih h
      omega

theorem internal_register_account_ok (c : Contract) (a : AccountId)
    (c1 : Contract) (h : internal_register_account c a = Except.ok c1) :
    lookupAccount c.accounts a = none ∧
      c1.accounts = insertAccount c.accounts a 0 ∧
      c1.total_supply = c.total_supply := by
  unfold internal_register_account at h
  split at h
  · exact absurd h (by simp)
  · rename_i hl
    refine ⟨hl, ?_, ?_⟩ <;> cases h <;> rfl

theorem internal_deposit_ok (c : Contract) (a : AccountId) (amount : Nat)
    (c1 : Contract) (h : internal_deposit c a amount = Except.ok c1) :
    ∃ b, lookupAccount c.accounts a = some b ∧ b + amount ≤ u128Max ∧
      c1.accounts = insertAccount c.accounts a (b + amount) ∧
      c1.total_supply = c.total_supply := by
  unfold internal_deposit at h
  split at h
  · exact absurd h (by simp)
  · rename_i bal hl
    split at h
    · rename_i hb
      refine ⟨bal, hl, hb, ?_, ?_⟩ <;> cases h <;> rfl
    · exact absurd h (by simp)

theorem internal_withdraw_ok (c : Contract) (a : AccountId) (amount : Nat)
    (c1 : Contract) (h : internal_withdraw c a amount = Except.ok c1) :
    ∃ b, lookupAccount c.accounts a = some b ∧ amount ≤ b ∧
      c1.accounts = insertAccount c.accounts a (b - amount) ∧
      c1.total_supply = c.total_supply := by
  unfold internal_withdraw at h
  split at h
  · exact absurd h (by simp)
  · rename_i bal hl
    split at h
    · rename_i hb
      refine ⟨bal, hl, hb, ?_, ?_⟩ <;> cases h <;> rfl
    · exact absurd h (by simp)

theorem internal_transfer_ok (c : Contract) (s r : AccountId) (amount : Nat)
    (memo : Option String) (c2 : Contract) (evs : List Event)
    (h : internal_transfer c s r amount memo = Except.ok (c2, evs)) :
    sumBalances c2.accounts = sumBalances c.accounts ∧
      c2.total_supply = c.total_supply := by
  unfold internal_transfer at h
  split at h
  · exact absurd h (by simp)
  split at h
  · exact absurd h (by simp)
  split at h
  · exact absurd h (by simp)
  rename_i br0 hr
  split at h
  · exact absurd h (by simp)
  rename_i cw hw
  split at h
  · exact absurd h (by simp)
  rename_i cd hd
  rw [Except.ok.injEq, Prod.mk.injEq] at h
  obtain ⟨h5, -⟩ := h
  rw [← h5]
  obtain ⟨bs, hbs, hle, hacc1, hsup1⟩ := internal_withdraw_ok c s amount cw hw
  obtain ⟨br, hbr, _, hacc2, hsup2⟩ := internal_deposit_ok cw r amount cd hd
  constructor
  · have h1 : sumBalances cw.accounts + bs =
        sumBalances c.accounts + (bs - amount) := by
      rw [hacc1]
      exact sumBalances_insert_some c.accounts s (bs - amount) bs hbs
    have h2 : sumBalances cd.accounts + br =
        sumBalances cw.accounts + (br + amount) := by
      rw [hacc2]
      exact sumBalances_insert_some cw.accounts r (br + amount) br hbr
    omega
  · rw [hsup2, hsup1]

theorem measure_initial (total_supply : Nat) (metadata : FungibleTokenMetadata) :
    measure_bytes_for_longest_account_id (initialContract total_supply metadata) =
      { accounts := [], total_supply := total_supply,
        bytes_for_longest_account_id := measuredStorageDelta,
        metadata := some metadata } := rfl

theorem new_unfold (owner_id : AccountId) (total_supply : Nat)
    (metadata : FungibleTokenMetadata) :
    Contract.new owner_id total_supply metadata =
      match internal_deposit
          { accounts := [(owner_id, 0)], total_supply := total_supply,
            bytes_for_longest_account_id := measuredStorageDelta,
            metadata := some metadata } owner_id total_supply with
      | Except.error e => (Except.error e, [])
      | Except.ok this3 =>
        (Except.ok this3,
         [Event.FtMint owner_id total_supply (some initialMintMemo)]) := rfl

theorem deposit_genesis_ok (owner_id : AccountId) (total_supply : Nat)
    (metadata : FungibleTokenMetadata) (h : total_supply ≤ u128Max) :
    internal_deposit
        { accounts := [(owner_id, 0)], total_supply := total_supply,
          bytes_for_longest_account_id := measuredStorageDelta,
          metadata := some metadata } owner_id total_supply =
      Except.ok
        { accounts := [(owner_id, total_supply)], total_supply := total_supply,
          bytes_for_longest_account_id := measuredStorageDelta,
          metadata := some metadata } := by
  simp [internal_deposit, lookupAccount, insertAccount, h]

theorem deposit_genesis_overflow (owner_id : AccountId) (total_supply : Nat)
    (metadata : FungibleTokenMetadata) (h : ¬ total_supply ≤ u128Max) :
    internal_deposit
        { accounts := [(owner_id, 0)], total_supply := total_supply,
          bytes_for_longest_account_id := measuredStorageDelta,
          metadata := some metadata } owner_id total_supply =
      Except.error FtError.BalanceOverflow := by
  simp [internal_deposit, lookupAccount, h]

theorem new_eq (owner_id : AccountId) (total_supply : Nat)
    (metadata : FungibleTokenMetadata) :
    Contract.new owner_id total_supply metadata =
      if total_supply ≤ u128Max then
        (Except.ok
          { accounts := [(owner_id, total_supply)], total_supply := total_supply,
            bytes_for_longest_account_id := measuredStorageDelta,
            metadata := some metadata },
         [Event.FtMint owner_id total_supply (some initialMintMemo)])
      else (Except.error FtError.BalanceOverflow, []) := by
  rw [new_unfold]
  by_cases h : total_supply ≤ u128Max
  · rw [if_pos h, deposit_genesis_ok owner_id total_supply metadata h]
  · rw [if_neg h, deposit_genesis_overflow owner_id total_supply metadata h]

theorem newTrace_unfold (owner_id : AccountId) (total_supply : Nat)
    (metadata : FungibleTokenMetadata) :
    newTrace owner_id total_supply metadata =
      match internal_deposit
          { accounts := [(owner_id, 0)], total_supply := total_supply,
            bytes_for_longest_account_id := measuredStorageDelta,
            metadata := some metadata } owner_id total_supply with
      | Except.error _ =>
        [(InitStep.measure, initialContract total_supply metadata),
         (InitStep.registerOwner,
          { accounts := [], total_supply := total_supply,
            bytes_for_longest_account_id := measuredStorageDelta,
            metadata := some metadata }),
         (InitStep.depositGenesis,
          { accounts := [(owner_id, 0)], total_supply := total_supply,
            bytes_for_longest_account_id := measuredStorageDelta,
            metadata := some metadata })]
      | Except.ok s3 =>
        [(InitStep.measure, initialContract total_supply metadata),
         (InitStep.registerOwner,
          { accounts := [], total_supply := total_supply,
            bytes_for_longest_account_id := measuredStorageDelta,
            metadata := some metadata }),
         (InitStep.depositGenesis,
          { accounts := [(owner_id, 0)], total_supply := total_supply,
            bytes_for_longest_account_id := measuredStorageDelta,
            metadata := some metadata }),
         (InitStep.emitMint, s3)] := rfl

theorem newTrace_eq (owner_id : AccountId) (total_supply : Nat)
    (metadata : FungibleTokenMetadata) :
    newTrace owner_id total_supply metadata =
      [(InitStep.measure, initialContract total_supply metadata),
       (InitStep.registerOwner,
        { accounts := [], total_supply := total_supply,
          bytes_for_longest_account_id := measuredStorageDelta,
          metadata := some metadata }),
       (InitStep.depositGenesis,
        { accounts := [(owner_id, 0)], total_supply := total_supply,
          bytes_for_longest_account_id := measuredStorageDelta,
          metadata := some metadata })] ++
      (if total_supply ≤ u128Max then
        [(InitStep.emitMint,
          { accounts := [(owner_id, total_supply)], total_supply := total_supply,
            bytes_for_longest_account_id := measuredStorageDelta,
            metadata := some metadata })]
       else []) := by
  rw [newTrace_unfold]
  by_cases h : total_supply ≤ u128Max
  · rw [deposit_genesis_ok owner_id total_supply metadata h, if_pos h]
    rfl
  · rw [deposit_genesis_overflow owner_id total_supply metadata h, if_neg h]
    rfl

theorem applyOp_preserves_conservation (c : Contract) (op : CoreOp)
    (c1 : Contract) (evs : List Event)
    (hinv : sumBalances c.accounts = c.total_supply)
    (h : applyOp c op = Except.ok (c1, evs)) :
    sumBalances c1.accounts = c1.total_supply := by
  cases op with
  | transfer s r amount memo =>
    obtain ⟨h1, h2⟩ := internal_transfer_ok c s r amount memo c1 evs h
    rw [h1, h2, hinv]
  | registerAccount a =>
    simp only [applyOp] at h
    split at h
    · exact absurd h (by simp)
    rename_i c0 hreg
    rw [Except.ok.injEq, Prod.mk.injEq] at h
    obtain ⟨h5, -⟩ := h
    rw [← h5]
    obtain ⟨hl, hacc, hsup⟩ := internal_register_account_ok c a c0 hreg
    rw [hacc, hsup, sumBalances_insert_none c.accounts a 0 hl]
    omega
  | unregisterAccount a force =>
    simp only [applyOp] at h
    unfold storage_unregister at h
    split at h
    · exact absurd h (by simp)
    rename_i bal hl
    have hbal := lookup_le_sumBalances c.accounts a bal hl
    have hrem := sumBalances_remove_some c.accounts a bal hl
    split at h
    · rename_i hz
      rw [Except.ok.injEq, Prod.mk.injEq] at h
      obtain ⟨h5, -⟩ := h
      rw [← h5]
      show sumBalances (removeAccount c.accounts a) = c.total_supply
      omega
    split at h
    · rw [Except.ok.injEq, Prod.mk.injEq] at h
      obtain ⟨h5, -⟩ := h
      rw [← h5]
      show sumBalances (removeAccount c.accounts a) = c.total_supply - bal
      omega
    · exact absurd h (by simp)

theorem new_ok_state (owner_id : AccountId) (total_supply : Nat)
    (metadata : FungibleTokenMetadata) (c : Contract)
    (h : (Contract.new owner_id total_supply metadata).1 = Except.ok c) :
    c = { accounts := [(owner_id, total_supply)], total_supply := total_supply,
          bytes_for_longest_account_id := measuredStorageDelta,
          metadata := some metadata } := by
  rw [new_eq] at h
  split at h
  · exact (Except.ok.inj h).symm
  · exact absurd h (by simp)

theorem reachable_conservation (c : Contract) (h : Reachable c) :
    sumBalances c.accounts = c.total_supply := by
  induction h with
  | init owner_id total_supply metadata c h =>
    rw [new_ok_state owner_id total_supply metadata c h]
    simp [sumBalances]
  | step c c1 op evs h h1 ih =>
    exact applyOp_preserves_conservation c op c1 evs ih h1

/-- C1: `Contract::new` registers the owner, deposits the full total
supply to the owner, sets the storage cost unit to the measured bytes for
the longest account id, and emits exactly one Mint event whose owner is
the owner account and whose amount is the full total supply. -/
theorem new_registers_deposits_measures_and_mints (owner_id : AccountId)
    (total_supply : Nat) (metadata : FungibleTokenMetadata)
    (h : total_supply ≤ u128Max) :
    ∃ c, (Contract.new owner_id total_supply metadata).1 = Except.ok c ∧
      isRegistered c owner_id = true ∧
      ft_balance_of c owner_id = total_supply ∧
      c.bytes_for_longest_account_id = measuredStorageDelta ∧
      (Contract.new owner_id total_supply metadata).2 =
        [Event.FtMint owner_id total_supply (some initialMintMemo)] := by
  refine ⟨{ accounts := [(owner_id, total_supply)],
            total_supply := total_supply,
            bytes_for_longest_account_id := measuredStorageDelta,
            metadata := some metadata }, ?_, ?_, ?_, rfl, ?_⟩
  · rw [new_eq, if_pos h]
  · simp [isRegistered, lookupAccount]
  · simp [ft_balance_of, lookupAccount]
  · rw [new_eq, if_pos h]

/-- Witness for C1 at owner `aliceId`, supply 1000 and the sample
metadata. -/
theorem new_registers_deposits_measures_and_mints_witness :
    1000 ≤ u128Max ∧
      ∃ c, (Contract.new aliceId 1000 sampleMetadata).1 = Except.ok c ∧
        isRegistered c aliceId = true ∧
        ft_balance_of c aliceId = 1000 ∧
        c.bytes_for_longest_account_id = measuredStorageDelta ∧
        (Contract.new aliceId 1000 sampleMetadata).2 =
          [Event.FtMint aliceId 1000 (some initialMintMemo)] :=
  ⟨by decide,
   new_registers_deposits_measures_and_mints aliceId 1000 sampleMetadata (by decide)⟩

/-- C2: in every reachable state the ledger balances sum to the stored
total supply, and immediately after a successful `new` the ledger holds
exactly one entry, the owner with the full supply. -/
theorem reachable_conservation_and_genesis_ledger (c : Contract)
    (h : Reachable c) (owner_id : AccountId) (total_supply : Nat)
    (metadata : FungibleTokenMetadata) (c0 : Contract)
    (h0 : (Contract.new owner_id total_supply metadata).1 = Except.ok c0) :
    sumBalances c.accounts = c.total_supply ∧
      c0.accounts = [(owner_id, total_supply)] := by
  refine ⟨reachable_conservation c h, ?_⟩
  rw [new_ok_state owner_id total_supply metadata c0 h0]

/-- Witness for C2 at the concrete state produced by `new` for `aliceId`
with supply 1000. -/
theorem reachable_conservation_and_genesis_ledger_witness :
    sumBalances newAliceContract.accounts = newAliceContract.total_supply ∧
      newAliceContract.accounts = [(aliceId, 1000)] :=
  reachable_conservation_and_genesis_ledger newAliceContract
    (Reachable.init aliceId 1000 sampleMetadata newAliceContract rfl)
    aliceId 1000 sampleMetadata newAliceContract rfl

/-- C3: a nonzero balance implies the account is registered; a ledger
record exists if and only if the account is registered; and in `new` the
owner is registered at the state where the genesis deposit runs, so the
deposit's registered-account precondition holds. -/
theorem nonzero_balance_implies_registered (c : Contract) (a : AccountId)
    (owner_id : AccountId) (total_supply : Nat)
    (metadata : FungibleTokenMetadata) :
    (ft_balance_of c a ≠ 0 → isRegistered c a = true) ∧
      (isRegistered c a = true ↔ (lookupAccount c.accounts a).isSome = true) ∧
      (∃ s2, (InitStep.depositGenesis, s2) ∈
          newTrace owner_id total_supply metadata ∧
        isRegistered s2 owner_id = true) := by
  refine ⟨?_, Iff.rfl, ?_⟩
  · intro hnz
    unfold ft_balance_of at hnz
    unfold isRegistered
    cases hl : lookupAccount c.accounts a with
    | none => rw [hl] at hnz; simp at hnz
    | some b => simp
  · refine ⟨{ accounts := [(owner_id, 0)], total_supply := total_supply,
              bytes_for_longest_account_id := measuredStorageDelta,
              metadata := some metadata }, ?_, ?_⟩
    · rw [newTrace_eq]
      simp
    · simp [isRegistered, lookupAccount]

/-- Witness for C3 at the concrete state produced by `new` for `aliceId`
with supply 1000. -/
theorem nonzero_balance_implies_registered_witness :
    (ft_balance_of newAliceContract aliceId ≠ 0 →
      isRegistered newAliceContract aliceId = true) ∧
      (isRegistered newAliceContract aliceId = true ↔
        (lookupAccount newAliceContract.accounts aliceId).isSome = true) ∧
      (∃ s2, (InitStep.depositGenesis, s2) ∈
          newTrace aliceId 1000 sampleMetadata ∧
        isRegistered s2 aliceId = true) :=
  nonzero_balance_implies_registered newAliceContract aliceId aliceId 1000
    sampleMetadata

/-- C4: initializing with total supply 1000 for an owner yields owner
balance 1000 and total supply 1000. -/
theorem scenario_a_balance_and_supply (owner_id : AccountId)
    (metadata : FungibleTokenMetadata) :
    ∃ c, (Contract.new owner_id 1000 metadata).1 = Except.ok c ∧
      ft_balance_of c owner_id = 1000 ∧ ft_total_supply c = 1000 := by
  have h : (1000 : Nat) ≤ u128Max := by decide
  refine ⟨{ accounts := [(owner_id, 1000)], total_supply := 1000,
            bytes_for_longest_account_id := measuredStorageDelta,
            metadata := some metadata }, ?_, ?_, rfl⟩
  · rw [new_eq, if_pos h]
  · simp [ft_balance_of, lookupAccount]

/-- C5: in every run of `new` the storage measurement is the very first
step, it runs on an empty ledger, it never recurs, and the owner's
registration is the step right after it. -/
theorem measure_precedes_registration (owner_id : AccountId)
    (total_supply : Nat) (metadata : FungibleTokenMetadata) :
    ∃ s0 s1 rest,
      newTrace owner_id total_supply metadata =
        (InitStep.measure, s0) :: (InitStep.registerOwner, s1) :: rest ∧
      s0.accounts = [] ∧
      InitStep.measure ∉ rest.map Prod.fst := by
  rw [newTrace_eq]
  by_cases h : total_supply ≤ u128Max
  · rw [if_pos h]
    refine ⟨_, _, _, rfl, rfl, ?_⟩
    simp
  · rw [if_neg h]
    refine ⟨_, _, _, rfl, rfl, ?_⟩
    simp

/-- C6 counterexample: from the state produced by `new` with supply 1000,
the forced unregistration of the owner — a core operation of the spec
(section 4.1, its only burn path) — changes the stored total supply from
1000 to 0, so `ft_total_supply` is not constant after initialization and
the claim as stated fails. -/
theorem forced_unregister_changes_total_supply :
    (Contract.new aliceId 1000 sampleMetadata).1 = Except.ok newAliceContract ∧
      ∃ c1 evs,
        applyOp newAliceContract (CoreOp.unregisterAccount aliceId true) =
          Except.ok (c1, evs) ∧
        ft_total_supply newAliceContract = 1000 ∧
        ft_total_supply c1 = 0 :=
  ⟨rfl, _, _, rfl, rfl, rfl⟩

/-- C6 amended: the stored total supply is set exactly once, at
initialization, to the genesis amount passed in, and every core operation
other than a forced unregistration of an account holding a nonzero
balance (the spec's burn path) leaves it unchanged. -/
theorem supply_set_once_and_preserved_except_burn (owner_id : AccountId)
    (total_supply : Nat) (metadata : FungibleTokenMetadata) (c0 : Contract)
    (h0 : (Contract.new owner_id total_supply metadata).1 = Except.ok c0)
    (c c1 : Contract) (op : CoreOp) (evs : List Event)
    (h1 : applyOp c op = Except.ok (c1, evs))
    (h2 : isForcedBurn c op = false) :
    ft_total_supply c0 = total_supply ∧
      ft_total_supply c1 = ft_total_supply c := by
  constructor
  · rw [new_ok_state owner_id total_supply metadata c0 h0]
    rfl
  · cases op with
    | transfer s r amount memo =>
      exact (internal_transfer_ok c s r amount memo c1 evs h1).2
    | registerAccount a =>
      simp only [applyOp] at h1
      split at h1
      · exact absurd h1 (by simp)
      rename_i ca hreg
      rw [Except.ok.injEq, Prod.mk.injEq] at h1
      obtain ⟨h5, -⟩ := h1
      rw [← h5]
      exact (internal_register_account_ok c a ca hreg).2.2
    | unregisterAccount a force =>
      simp only [applyOp] at h1
      unfold storage_unregister at h1
      split at h1
      · exact absurd h1 (by simp)
      rename_i bal hl
      split at h1
      · rw [Except.ok.injEq, Prod.mk.injEq] at h1
        obtain ⟨h5, -⟩ := h1
        rw [← h5]
        rfl
      split at h1
      · rename_i hz hf
        exfalso
        simp [isForcedBurn, hf, ft_balance_of, hl, hz] at h2
      · exact absurd h1 (by simp)

/-- Witness for the amended C6: the genesis supply of `newAliceContract`
is 1000, and registering `bobId` (a non-burning core operation) preserves
the total supply. -/
theorem supply_set_once_and_preserved_except_burn_witness :
    ft_total_supply newAliceContract = 1000 ∧
      ft_total_supply registeredBobContract =
        ft_total_supply newAliceContract :=
  supply_set_once_and_preserved_except_burn aliceId 1000 sampleMetadata
    newAliceContract rfl newAliceContract registeredBobContract
    (CoreOp.registerAccount bobId) [] rfl rfl

/-- C7: either `new` fails, in which case no event is emitted and no
emission step appears in the trace, or the owner's registration and the
genesis deposit both completed, the emission is the last step of the
trace at the post-deposit state, and `new` returns that state with the
single Mint event. -/
theorem mint_emitted_only_after_mutations (owner_id : AccountId)
    (total_supply : Nat) (metadata : FungibleTokenMetadata) :
    ((Contract.new owner_id total_supply metadata).2 = [] ∧
      InitStep.emitMint ∉
        (newTrace owner_id total_supply metadata).map Prod.fst ∧
      (∃ e, (Contract.new owner_id total_supply metadata).1 =
        Except.error e)) ∨
    (∃ s1 s2,
      internal_register_account
          (measure_bytes_for_longest_account_id
            (initialContract total_supply metadata)) owner_id =
        Except.ok s1 ∧
      internal_deposit s1 owner_id total_supply = Except.ok s2 ∧
      (newTrace owner_id total_supply metadata).getLast? =
        some (InitStep.emitMint, s2) ∧
      Contract.new owner_id total_supply metadata =
        (Except.ok s2,
         [Event.FtMint owner_id total_supply (some initialMintMemo)])) := by
  by_cases h : total_supply ≤ u128Max
  · right
    refine ⟨{ accounts := [(owner_id, 0)], total_supply := total_supply,
              bytes_for_longest_account_id := measuredStorageDelta,
              metadata := some metadata },
            { accounts := [(owner_id, total_supply)],
              total_supply := total_supply,
              bytes_for_longest_account_id := measuredStorageDelta,
              metadata := some metadata }, rfl, ?_, ?_, ?_⟩
    · exact deposit_genesis_ok owner_id total_supply metadata h
    · rw [newTrace_eq, if_pos h]
      rfl
    · rw [new_eq, if_pos h]
  · left
    refine ⟨?_, ?_, FtError.BalanceOverflow, ?_⟩
    · rw [new_eq, if_neg h]
    · rw [newTrace_eq, if_neg h]
      simp
    · rw [new_eq, if_neg h]

/-- C8: calling the initializer a second time on an already-initialized
contract fails with `AlreadyInitialized` and leaves the stored state and
the event log unchanged. -/
theorem second_init_fails_already_initialized
    (prior : Option Contract × List Event) (c : Contract)
    (owner_id : AccountId) (total_supply : Nat)
    (metadata : FungibleTokenMetadata) (h : prior.1 = some c) :
    initializeContract prior owner_id total_supply metadata =
      (prior, some FtError.AlreadyInitialized) := by
  unfold initializeContract
  rw [h]

/-- Witness for C8: re-initializing over the state produced by the first
initialization fails and changes nothing. -/
theorem second_init_fails_already_initialized_witness :
    initializeContract (some newAliceContract, []) bobId 5 sampleMetadata =
      ((some newAliceContract, []), some FtError.AlreadyInitialized) :=
  second_init_fails_already_initialized (some newAliceContract, [])
    newAliceContract bobId 5 sampleMetadata rfl

/-- C9: `new_default_meta` produces exactly the contract state and the
events of `new` applied to the fixed default metadata: spec "ft-1.0.0",
name "Team Token FT Tutorial", symbol "gtNEAR", the embedded SVG icon, no
reference, 24 decimals. -/
theorem new_default_meta_refines_new (owner_id : AccountId)
    (total_supply : Nat) :
    Contract.new_default_meta owner_id total_supply =
      Contract.new owner_id total_supply
        { spec := "ft-1.0.0",
          name := "Team Token FT Tutorial",
          symbol := "gtNEAR",
          icon := some DATA_IMAGE_SVG_GT_ICON,
          reference := none,
          reference_hash := none,
          decimals := 24 } := rfl

/-- C10: initialization is deterministic — runs of `new` on equal owner,
supply and metadata produce identical states and event sequences — and
every event `new` emits is the genesis Mint with the fixed memo. -/
theorem new_deterministic_with_fixed_memo (o1 o2 : AccountId)
    (supply1 supply2 : Nat) (m1 m2 : FungibleTokenMetadata)
    (h1 : o1 = o2) (h2 : supply1 = supply2) (h3 : m1 = m2) :
    Contract.new o1 supply1 m1 = Contract.new o2 supply2 m2 ∧
      ∀ e ∈ (Contract.new o1 supply1 m1).2,
        e = Event.FtMint o1 supply1 (some initialMintMemo) := by
  subst h1
  subst h2
  subst h3
  refine ⟨rfl, ?_⟩
  rw [new_eq]
  by_cases h : supply1 ≤ u128Max
  · rw [if_pos h]
    intro e he
    simpa using he
  · rw [if_neg h]
    intro e he
    simp at he

/-- Witness for C10 at owner `aliceId`, supply 1000 and the sample
metadata. -/
theorem new_deterministic_with_fixed_memo_witness :
    Contract.new aliceId 1000 sampleMetadata =
        Contract.new aliceId 1000 sampleMetadata ∧
      ∀ e ∈ (Contract.new aliceId 1000 sampleMetadata).2,
        e = Event.FtMint aliceId 1000 (some initialMintMemo) :=
  new_deterministic_with_fixed_memo aliceId aliceId 1000 1000
    sampleMetadata sampleMetadata rfl rfl rfl

end NearFt
